import Mathlib

/-!
Verification of the stock-processing module (`src/stock/stock_processor.py`)
against its natural-language specification.

The Python code is shallowly embedded: Python runtime values are modelled by
the inductive type `PyVal`, Python floats by rationals `ℚ`, a raised exception
by the `Except.error` constructor.  Python treats `bool` as a subclass of `int`, so
`isinstance(x, int)` is true for booleans; this is reflected in `isPyInt`.
`float(s)` on strings is modelled for plain decimal literals (optional sign,
digits, optional fractional part, surrounding whitespace) — the subset
exercised by the repository; exotic forms (exponents, `inf`, `nan`) are not
modelled, and no claim depends on them.  `round(x, 2)` is modelled as
round-half-up on rationals; the spec leaves the rounding mode open.
-/

/-- A Python runtime value, restricted to the types the module manipulates. -/
inductive PyVal where
  | none
  | bool (b : Bool)
  | int (n : Int)
  | float (q : ℚ)
  | str (s : String)
  | tuple (xs : List PyVal)
  | list (xs : List PyVal)

/-- An exception raised by the module: `TypeError` or `ValueError` with a message. -/
inductive PyError where
  | typeError (msg : String)
  | valueError (msg : String)
deriving DecidableEq

/-- The `StockResult` named tuple of the module. -/
structure StockResult where
  total_value : ℚ
  out_of_stock_items : List String
  low_stock_items : List String
  negative_stock_items : List String
deriving DecidableEq

/-- Python `str.strip()`: the string without leading and trailing whitespace.
Implemented on the character list by structural recursion so that it
evaluates inside the kernel. -/
def pyStrip (s : String) : String :=
  String.mk (((s.data.dropWhile Char.isWhitespace).reverse.dropWhile
    Char.isWhitespace).reverse)

/-- Digits of a decimal literal read as a natural number. -/
def natOfDigits (cs : List Char) : Nat :=
  cs.foldl (fun a c => a * 10 + (c.toNat - 48)) 0

/-- Python `float(s)` on a (already stripped) string: an optional sign, then
digits with an optional fractional part; at least one digit overall. -/
def parseDecimal (s : String) : Option ℚ :=
  let cs := s.data
  let sgn : ℚ := match cs with
    | '-' :: _ => -1
    | _ => 1
  let cs1 := match cs with
    | '-' :: r => r
    | '+' :: r => r
    | _ => cs
  let ip := cs1.takeWhile Char.isDigit
  let rest := cs1.dropWhile Char.isDigit
  match rest with
  | [] =>
      if ip.isEmpty then Option.none
      else some (sgn * (natOfDigits ip : ℚ))
  | '.' :: fp =>
      if fp.all Char.isDigit && (!ip.isEmpty || !fp.isEmpty) then
        some (sgn * ((natOfDigits ip : ℚ) + (natOfDigits fp : ℚ) / (10 ^ fp.length)))
      else Option.none
  | _ => Option.none

/-- The Python builtin `float(x)`: succeeds on booleans, integers, floats and
numeric strings (whitespace-stripped), fails (TypeError/ValueError) otherwise. -/
def pyFloat : PyVal → Option ℚ
  | PyVal.bool b => some (if b then 1 else 0)
  | PyVal.int n => some (n : ℚ)
  | PyVal.float q => some q
  | PyVal.str s => parseDecimal (pyStrip s)
  | _ => Option.none

/-- Embedding of `_convert_price_to_float`: `float(price)`, re-raising any
`ValueError`/`TypeError` as a `ValueError`. -/
def convert_price_to_float (price : PyVal) : Except PyError ℚ :=
  match pyFloat price with
  | some q => Except.ok q
  | Option.none => Except.error (PyError.valueError "Cannot convert price to float")

/-- Python `isinstance(x, int)`: true for integers and booleans (`bool` is a
subclass of `int`). -/
def isPyInt : PyVal → Bool
  | PyVal.int _ => true
  | PyVal.bool _ => true
  | _ => false

/-- The integer value of a `PyVal` passing `isPyInt` (`True` is 1, `False` is 0). -/
def pyIntVal : PyVal → Int
  | PyVal.int n => n
  | PyVal.bool b => if b then 1 else 0
  | _ => 0

/-- Python `isinstance(x, list)`. -/
def isPyList : PyVal → Bool
  | PyVal.list _ => true
  | _ => false

/-- Whether a value is an iterable sequence in the Python sense
(`list`, `tuple`, `str`). -/
def isSequence : PyVal → Bool
  | PyVal.list _ => true
  | PyVal.tuple _ => true
  | PyVal.str _ => true
  | _ => false

/-- Python `round(x, 2)` modelled on rationals (round half up). -/
def round2 (x : ℚ) : ℚ := (round (x * 100) : ℤ) / 100

/-- The body of the `for` loop of `process_stock`, acting on the accumulator
`(total_value, out_of_stock_items, low_stock_items, negative_stock_items)`.
Each `continue` (skip) path returns the accumulator unchanged; the
surrounding `try/except` never fires beyond the modelled `ValueError`
because no other statement of the body can raise. -/
def processRecord (st : StockResult) (product : PyVal) : StockResult :=
  match product with
  | PyVal.tuple [product_id, price, stock_quantity] =>
    match product_id with
    | PyVal.str pid =>
      if pyStrip pid = "" then st
      else
        match convert_price_to_float price with
        | Except.error _ => st
        | Except.ok p =>
          let price_float := if p < 0 then 0 else p
          if isPyInt stock_quantity then
            let q := pyIntVal stock_quantity
            let negative_stock_items :=
              if q < 0 then st.negative_stock_items ++ [pid]
              else st.negative_stock_items
            let effective_stock : Int := if q < 0 then 0 else q
            let total_value := st.total_value + price_float * (effective_stock : ℚ)
            let (out_of_stock_items, low_stock_items) :=
              if q = 0 then (st.out_of_stock_items ++ [pid], st.low_stock_items)
              else if 0 < q ∧ q ≤ 5 then (st.out_of_stock_items, st.low_stock_items ++ [pid])
              else (st.out_of_stock_items, st.low_stock_items)
            ⟨total_value, out_of_stock_items, low_stock_items, negative_stock_items⟩
          else st
    | _ => st
  | _ => st

/-- Embedding of `process_stock`: `TypeError` unless the input is a list,
otherwise fold the loop body over the records and round the total. -/
def process_stock (product_list : PyVal) : Except PyError StockResult :=
  match product_list with
  | PyVal.list products =>
      let r := products.foldl processRecord ⟨0, [], [], []⟩
      Except.ok ⟨round2 r.total_value, r.out_of_stock_items,
                 r.low_stock_items, r.negative_stock_items⟩
  | _ => Except.error (PyError.typeError "product_list must be a list")

/-- Embedding of `process_stock_legacy`: call the core, return
`(total_value, out_of_stock_items)`; exceptions propagate. -/
def process_stock_legacy (product_list : PyVal) : Except PyError (ℚ × List String) :=
  match process_stock product_list with
  | Except.ok result => Except.ok (result.total_value, result.out_of_stock_items)
  | Except.error e => Except.error e

/-- A record that passes every validation step of the loop, reduced to the
data the loop then uses: the original identifier, the clamped price and the
integer quantity.  `Option.none` exactly on the skip paths. -/
def validRecord : PyVal → Option (String × ℚ × Int)
  | PyVal.tuple [product_id, price, stock_quantity] =>
    match product_id with
    | PyVal.str pid =>
      if pyStrip pid = "" then Option.none
      else
        match convert_price_to_float price with
        | Except.error _ => Option.none
        | Except.ok p =>
          if isPyInt stock_quantity then
            some (pid, (if p < 0 then 0 else p), pyIntVal stock_quantity)
          else Option.none
    | _ => Option.none
  | _ => Option.none

/-- Category selector for `out_of_stock_items`: quantity exactly zero. -/
def catOut (r : String × ℚ × Int) : Option String :=
  if r.2.2 = 0 then some r.1 else Option.none

/-- Category selector for `low_stock_items`: quantity in (0, 5]. -/
def catLow (r : String × ℚ × Int) : Option String :=
  if 0 < r.2.2 ∧ r.2.2 ≤ 5 then some r.1 else Option.none

/-- Category selector for `negative_stock_items`: negative quantity. -/
def catNeg (r : String × ℚ × Int) : Option String :=
  if r.2.2 < 0 then some r.1 else Option.none

/-- The value a valid record adds to the running total:
clamped price times effective stock. -/
def recordValue (r : String × ℚ × Int) : ℚ :=
  r.2.1 * (if r.2.2 < 0 then 0 else (r.2.2 : ℚ))

/-- Unrounded total value contributed by the valid records of a batch. -/
def batchValue (products : List PyVal) : ℚ :=
  ((products.filterMap validRecord).map recordValue).sum

/-- The out-of-stock identifiers of a batch, in input order. -/
def outOfStockOf (products : List PyVal) : List String :=
  (products.filterMap validRecord).filterMap catOut

/-- The low-stock identifiers of a batch, in input order. -/
def lowStockOf (products : List PyVal) : List String :=
  (products.filterMap validRecord).filterMap catLow

/-- The negative-stock identifiers of a batch, in input order. -/
def negativeStockOf (products : List PyVal) : List String :=
  (products.filterMap validRecord).filterMap catNeg

theorem processRecord_eq (st : StockResult) (p : PyVal) :
    processRecord st p =
      match validRecord p with
      | Option.none => st
      | some r => ⟨st.total_value + recordValue r,
                   st.out_of_stock_items ++ (catOut r).toList,
                   st.low_stock_items ++ (catLow r).toList,
                   st.negative_stock_items ++ (catNeg r).toList⟩ := by
  cases p with
  | none => rfl
  | bool b => rfl
  | int n => rfl
  | float q => rfl
  | str s => rfl
  | list ys => rfl
  | tuple xs =>
    match xs with
    | [] => rfl
    | [a] => rfl
    | [a, b] => rfl
    | a :: b :: c :: d :: t => rfl
    | [a, b, c] =>
      cases a with
      | none => rfl
      | bool b2 => rfl
      | int n => rfl
      | float q2 => rfl
      | tuple ys => rfl
      | list ys => rfl
      | str pid =>
        by_cases hpid : pyStrip pid = ""
        · simp [processRecord, validRecord, hpid]
        · cases hc : convert_price_to_float b with
          | error e => simp [processRecord, validRecord, hpid, hc]
          | ok pf =>
            by_cases hint : isPyInt c
            · rcases lt_trichotomy (pyIntVal c) 0 with hlt | heq | hgt
              · have h0 : ¬ pyIntVal c = 0 := by omega
                have h5 : ¬ (0 < pyIntVal c ∧ pyIntVal c ≤ 5) := by omega
                simp [processRecord, validRecord, hpid, hc, hint,
                      catOut, catLow, catNeg, recordValue, hlt, h0, h5]
              · simp [processRecord, validRecord, hpid, hc, hint,
                      catOut, catLow, catNeg, recordValue, heq]
              · have h0 : ¬ pyIntVal c = 0 := by omega
                have hneg : ¬ pyIntVal c < 0 := by omega
                by_cases h5 : pyIntVal c ≤ 5
                · have hlow : 0 < pyIntVal c ∧ pyIntVal c ≤ 5 := ⟨hgt, h5⟩
                  simp [processRecord, validRecord, hpid, hc, hint,
                        catOut, catLow, catNeg, recordValue, h0, hneg, hlow]
                · have hlow : ¬ (0 < pyIntVal c ∧ pyIntVal c ≤ 5) := by omega
                  simp [processRecord, validRecord, hpid, hc, hint,
                        catOut, catLow, catNeg, recordValue, h0, hneg, hlow]
            · simp [processRecord, validRecord, hpid, hc, hint]

theorem foldl_processRecord (products : List PyVal) (st : StockResult) :
    products.foldl processRecord st =
      ⟨st.total_value + batchValue products,
       st.out_of_stock_items ++ outOfStockOf products,
       st.low_stock_items ++ lowStockOf products,
       st.negative_stock_items ++ negativeStockOf products⟩ := by
  induction products generalizing st with
  | nil => simp [batchValue, outOfStockOf, lowStockOf, negativeStockOf]
  | cons p ps ih =>
    cases hv : validRecord p with
    | none =>
      simp only [List.foldl_cons, processRecord_eq, hv, ih]
      simp [batchValue, outOfStockOf, lowStockOf, negativeStockOf, List.filterMap_cons, hv]
    | some r =>
      simp only [List.foldl_cons, processRecord_eq, hv, ih]
      simp only [batchValue, outOfStockOf, lowStockOf, negativeStockOf, List.filterMap_cons, hv,
                 List.map_cons, List.sum_cons]
      cases catOut r <;> cases catLow r <;> cases catNeg r <;>
        simp [add_assoc, add_comm, add_left_comm, List.append_assoc]

theorem process_stock_list_eq (products : List PyVal) :
    process_stock (PyVal.list products) =
      Except.ok ⟨round2 (batchValue products), outOfStockOf products,
                 lowStockOf products, negativeStockOf products⟩ := by
  simp [process_stock, foldl_processRecord]

theorem validRecord_price_nonneg {p : PyVal} {pid : String} {pf : ℚ} {q : Int}
    (h : validRecord p = some (pid, pf, q)) : 0 ≤ pf := by
  unfold validRecord at h
  split at h
  · split at h
    · split at h
      · exact absurd h (by simp)
      · cases hc : convert_price_to_float _ with
        | error e => rw [hc] at h; exact absurd h (by simp)
        | ok pr =>
          rw [hc] at h
          simp only [] at h
          split at h
          · simp only [Option.some.injEq, Prod.mk.injEq] at h
            obtain ⟨-, hpf, -⟩ := h
            subst hpf
            split
            · exact le_refl 0
            · exact le_of_not_lt (by assumption)
          · exact absurd h (by simp)
    · exact absurd h (by simp)
  · exact absurd h (by simp)

theorem batchValue_nonneg (products : List PyVal) : 0 ≤ batchValue products := by
  unfold batchValue
  apply List.sum_nonneg
  intro x hx
  simp only [List.mem_map] at hx
  obtain ⟨r, hr, rfl⟩ := hx
  simp only [List.mem_filterMap] at hr
  obtain ⟨p, hp, hv⟩ := hr
  obtain ⟨pid, pf, q⟩ := r
  have hpf := validRecord_price_nonneg hv
  unfold recordValue
  split
  · simp
  · rename_i hq
    exact mul_nonneg hpf (by exact_mod_cast le_of_not_lt hq)

theorem round2_nonneg {x : ℚ} (h : 0 ≤ x) : 0 ≤ round2 x := by
  unfold round2
  apply div_nonneg _ (by norm_num)
  have h2 : (0:ℤ) ≤ round (x * 100) := by
    rw [round_eq]
    apply Int.floor_nonneg.mpr
    nlinarith
  exact_mod_cast h2

/-- C1: for every input batch accepted by `process_stock`, the `total_value`
field of the returned result is nonnegative, regardless of negative prices or
negative stock quantities among the records. -/
theorem claim_C1_total_value_nonneg (pl : PyVal) (r : StockResult)
    (h : process_stock pl = Except.ok r) : 0 ≤ r.total_value := by
  cases pl with
  | list products =>
    rw [process_stock_list_eq] at h
    injection h with h
    subst h
    exact round2_nonneg (batchValue_nonneg products)
  | none => simp [process_stock] at h
  | bool b => simp [process_stock] at h
  | int n => simp [process_stock] at h
  | float q => simp [process_stock] at h
  | str s => simp [process_stock] at h
  | tuple xs => simp [process_stock] at h

/-- C1 witness: a concrete batch with a negative price and a negative
quantity still yields a nonnegative total. -/
theorem claim_C1_witness :
    process_stock (PyVal.list [PyVal.tuple [PyVal.str "w1", PyVal.float (-3), PyVal.int 2],
                               PyVal.tuple [PyVal.str "w2", PyVal.float 4, PyVal.int (-6)]])
      = Except.ok ⟨0, [], ["w1"], ["w2"]⟩ ∧
    0 ≤ (StockResult.mk 0 [] ["w1"] ["w2"]).total_value := by
  have hw : process_stock
      (PyVal.list [PyVal.tuple [PyVal.str "w1", PyVal.float (-3), PyVal.int 2],
                   PyVal.tuple [PyVal.str "w2", PyVal.float 4, PyVal.int (-6)]])
      = Except.ok ⟨0, [], ["w1"], ["w2"]⟩ := by
    rw [process_stock_list_eq]
    have hs1 : (pyStrip "w1" = "") = False := by decide
    have hs2 : (pyStrip "w2" = "") = False := by decide
    norm_num [batchValue, outOfStockOf, lowStockOf, negativeStockOf, validRecord,
      convert_price_to_float, pyFloat, catOut, catLow, catNeg, recordValue, round2,
      isPyInt, pyIntVal, hs1, hs2, List.filterMap_cons]
  exact ⟨hw, claim_C1_total_value_nonneg _ _ hw⟩

/-- C3 counterexample: a tuple containing one well-formed record is an
iterable sequence of records, yet `process_stock` raises the `TypeError`
failure on it, refuting the claim that sequence inputs of any kind are
accepted. -/
theorem claim_C3_counterexample :
    isSequence (PyVal.tuple [PyVal.tuple [PyVal.str "p1", PyVal.float 1, PyVal.int 1]]) = true ∧
    process_stock (PyVal.tuple [PyVal.tuple [PyVal.str "p1", PyVal.float 1, PyVal.int 1]]) =
      Except.error (PyError.typeError "product_list must be a list") :=
  ⟨rfl, rfl⟩

/-- C3 amended: `process_stock` raises the `TypeError`-class failure if and
only if the top-level input is not a list (not merely any sequence); for
every list input it returns a result, and when it raises no partial result
is produced (the call yields only the error). -/
theorem claim_C3_fatal_iff_not_list (pl : PyVal) :
    ((∃ r, process_stock pl = Except.ok r) ↔ isPyList pl = true) ∧
    (process_stock pl = Except.error (PyError.typeError "product_list must be a list")
      ↔ isPyList pl = false) := by
  cases pl <;> simp [process_stock, isPyList]

theorem filterMap_validRecord_filter (xs : List PyVal) :
    (xs.filter (fun p => (validRecord p).isSome)).filterMap validRecord
      = xs.filterMap validRecord := by
  induction xs with
  | nil => rfl
  | cons p ps ih =>
    cases hv : validRecord p <;>
      simp [List.filter_cons, List.filterMap_cons, hv, ih]

/-- C4: for every list input `process_stock` never raises — it returns a
result, and that result is exactly the one computed from the valid subset of
the records (dropping every malformed record leaves the output unchanged). -/
theorem claim_C4_skip_safety (xs : List PyVal) :
    (∃ r, process_stock (PyVal.list xs) = Except.ok r) ∧
    process_stock (PyVal.list xs) =
      process_stock (PyVal.list (xs.filter (fun p => (validRecord p).isSome))) := by
  refine ⟨⟨_, process_stock_list_eq xs⟩, ?_⟩
  rw [process_stock_list_eq, process_stock_list_eq]
  simp [batchValue, outOfStockOf, lowStockOf, negativeStockOf, filterMap_validRecord_filter]

/-- C5: a record that fails a validation step (`validRecord` is `none`)
leaves the loop accumulator unchanged — it contributes nothing to
`total_value` and its identifier is appended to no category sequence — and
removing it from any batch does not change the result of `process_stock`. -/
theorem claim_C5_invalid_record_excluded (p : PyVal) (h : validRecord p = Option.none)
    (st : StockResult) (xs ys : List PyVal) :
    processRecord st p = st ∧
    process_stock (PyVal.list (xs ++ p :: ys)) = process_stock (PyVal.list (xs ++ ys)) := by
  constructor
  · rw [processRecord_eq, h]
  · rw [process_stock_list_eq, process_stock_list_eq]
    have hfm : (xs ++ p :: ys).filterMap validRecord = (xs ++ ys).filterMap validRecord := by
      simp [List.filterMap_append, List.filterMap_cons, h]
    simp [batchValue, outOfStockOf, lowStockOf, negativeStockOf, hfm]

/-- C5 witness: a malformed record (a bare string) is skipped and its
presence in a batch does not change the result. -/
theorem claim_C5_witness :
    validRecord (PyVal.str "junk") = Option.none ∧
    processRecord ⟨9, ["k"], [], []⟩ (PyVal.str "junk") = ⟨9, ["k"], [], []⟩ ∧
    process_stock (PyVal.list [PyVal.str "junk",
        PyVal.tuple [PyVal.str "a", PyVal.float 1, PyVal.int 7]])
      = process_stock (PyVal.list [PyVal.tuple [PyVal.str "a", PyVal.float 1, PyVal.int 7]]) := by
  have h := claim_C5_invalid_record_excluded (PyVal.str "junk") rfl ⟨9, ["k"], [], []⟩ []
        [PyVal.tuple [PyVal.str "a", PyVal.float 1, PyVal.int 7]]
  exact ⟨rfl, h.1, h.2⟩

/-- C7: each category sequence of the result equals the subsequence of the
identifiers of valid records matching the predicate of that category, in input
order (`List.filterMap` preserves the relative order of the input). -/
theorem claim_C7_order_preservation (xs : List PyVal) (r : StockResult)
    (h : process_stock (PyVal.list xs) = Except.ok r) :
    r.out_of_stock_items = (xs.filterMap validRecord).filterMap catOut ∧
    r.low_stock_items = (xs.filterMap validRecord).filterMap catLow ∧
    r.negative_stock_items = (xs.filterMap validRecord).filterMap catNeg := by
  rw [process_stock_list_eq] at h
  injection h with h
  subst h
  exact ⟨rfl, rfl, rfl⟩

/-- C7 witness: a concrete batch whose categories come out in input order. -/
theorem claim_C7_witness :
    process_stock (PyVal.list [PyVal.tuple [PyVal.str "a", PyVal.float 1, PyVal.int 0],
                               PyVal.tuple [PyVal.str "b", PyVal.float 1, PyVal.int 3],
                               PyVal.tuple [PyVal.str "c", PyVal.float 1, PyVal.int (-1)],
                               PyVal.tuple [PyVal.str "d", PyVal.float 1, PyVal.int 9],
                               PyVal.tuple [PyVal.str "e", PyVal.float 1, PyVal.int 0]])
      = Except.ok ⟨12, ["a", "e"], ["b"], ["c"]⟩ ∧
    (StockResult.mk 12 ["a", "e"] ["b"] ["c"]).out_of_stock_items
      = (([PyVal.tuple [PyVal.str "a", PyVal.float 1, PyVal.int 0],
           PyVal.tuple [PyVal.str "b", PyVal.float 1, PyVal.int 3],
           PyVal.tuple [PyVal.str "c", PyVal.float 1, PyVal.int (-1)],
           PyVal.tuple [PyVal.str "d", PyVal.float 1, PyVal.int 9],
           PyVal.tuple [PyVal.str "e", PyVal.float 1, PyVal.int 0]] : List PyVal).filterMap
             validRecord).filterMap catOut := by
  have hw : process_stock (PyVal.list [PyVal.tuple [PyVal.str "a", PyVal.float 1, PyVal.int 0],
      PyVal.tuple [PyVal.str "b", PyVal.float 1, PyVal.int 3],
      PyVal.tuple [PyVal.str "c", PyVal.float 1, PyVal.int (-1)],
      PyVal.tuple [PyVal.str "d", PyVal.float 1, PyVal.int 9],
      PyVal.tuple [PyVal.str "e", PyVal.float 1, PyVal.int 0]])
      = Except.ok ⟨12, ["a", "e"], ["b"], ["c"]⟩ := by
    rw [process_stock_list_eq]
    have hsa : (pyStrip "a" = "") = False := by decide
    have hsb : (pyStrip "b" = "") = False := by decide
    have hsc : (pyStrip "c" = "") = False := by decide
    have hsd : (pyStrip "d" = "") = False := by decide
    have hse : (pyStrip "e" = "") = False := by decide
    norm_num [batchValue, outOfStockOf, lowStockOf, negativeStockOf, validRecord,
      convert_price_to_float, pyFloat, catOut, catLow, catNeg, recordValue, round2,
      isPyInt, pyIntVal, hsa, hsb, hsc, hsd, hse, List.filterMap_cons]
  exact ⟨hw, (claim_C7_order_preservation _ _ hw).1⟩

/-- C8: `process_stock_legacy` returns exactly the pair
`(total_value, out_of_stock_items)` of the result of `process_stock` on the
same input, and fails exactly when the core fails. -/
theorem claim_C8_legacy_refinement (pl : PyVal) :
    process_stock_legacy pl
      = (process_stock pl).map (fun r => (r.total_value, r.out_of_stock_items)) ∧
    (process_stock_legacy pl).isOk = (process_stock pl).isOk := by
  cases h : process_stock pl <;>
    simp [process_stock_legacy, h, Except.map, Except.isOk, Except.toBool]

theorem count_cat_partition (vs : List (String × ℚ × Int)) (s : String) :
    (vs.filterMap catOut).count s + (vs.filterMap catLow).count s
      + (vs.filterMap catNeg).count s
      = (vs.filter (fun t => t.1 = s ∧ t.2.2 ≤ 5)).length := by
  induction vs with
  | nil => rfl
  | cons r vs ih =>
    obtain ⟨pid, pf, q⟩ := r
    simp only [List.filterMap_cons, List.filter_cons]
    rcases lt_trichotomy q 0 with hlt | heq | hgt
    · have h0 : ¬ q = 0 := by omega
      have hpos : ¬ 0 < q := by omega
      have h5 : q ≤ 5 := by omega
      by_cases hps : pid = s
      · subst hps
        simp [catOut, catLow, catNeg, h0, hpos, hlt, h5, List.count_cons] at ih ⊢
        omega
      · simp [catOut, catLow, catNeg, h0, hpos, hlt, h5, hps, List.count_cons] at ih ⊢
        omega
    · subst heq
      by_cases hps : pid = s
      · subst hps
        simp [catOut, catLow, catNeg, List.count_cons] at ih ⊢
        omega
      · simp [catOut, catLow, catNeg, hps, List.count_cons] at ih ⊢
        omega
    · have h0 : ¬ q = 0 := by omega
      have hneg : ¬ q < 0 := by omega
      by_cases h5 : q ≤ 5
      · by_cases hps : pid = s
        · subst hps
          simp [catOut, catLow, catNeg, h0, hneg, hgt, h5, List.count_cons] at ih ⊢
          omega
        · simp [catOut, catLow, catNeg, h0, hneg, hgt, h5, hps, List.count_cons] at ih ⊢
          omega
      · simp [catOut, catLow, catNeg, h0, hneg, hgt, h5, List.count_cons] at ih ⊢
        omega

/-- C2: for every input batch and every identifier, the number of its
occurrences across the three category sequences together equals the number of
valid records carrying it with quantity at most 5 — so each valid, non-skipped
record lands in exactly one sequence when its quantity is at most 5 and in
none when it exceeds 5, never in two. -/
theorem claim_C2_partition_exclusive (xs : List PyVal) (r : StockResult)
    (h : process_stock (PyVal.list xs) = Except.ok r) (s : String) :
    r.out_of_stock_items.count s + r.low_stock_items.count s
      + r.negative_stock_items.count s
      = ((xs.filterMap validRecord).filter (fun t => t.1 = s ∧ t.2.2 ≤ 5)).length := by
  rw [process_stock_list_eq] at h
  injection h with h
  subst h
  exact count_cat_partition (xs.filterMap validRecord) s

/-- C2 witness: a batch with a duplicated identifier in two categories and a
normal-stock record in none. -/
theorem claim_C2_witness :
    process_stock (PyVal.list [PyVal.tuple [PyVal.str "a", PyVal.float 1, PyVal.int 0],
                               PyVal.tuple [PyVal.str "a", PyVal.float 1, PyVal.int 3],
                               PyVal.tuple [PyVal.str "x", PyVal.float 1, PyVal.int 9]])
      = Except.ok ⟨12, ["a"], ["a"], []⟩ ∧
    (["a"] : List String).count "a" + (["a"] : List String).count "a"
      + ([] : List String).count "a"
      = ((([PyVal.tuple [PyVal.str "a", PyVal.float 1, PyVal.int 0],
            PyVal.tuple [PyVal.str "a", PyVal.float 1, PyVal.int 3],
            PyVal.tuple [PyVal.str "x", PyVal.float 1, PyVal.int 9]] : List PyVal).filterMap
              validRecord).filter (fun t => t.1 = "a" ∧ t.2.2 ≤ 5)).length := by
  have hw : process_stock (PyVal.list [PyVal.tuple [PyVal.str "a", PyVal.float 1, PyVal.int 0],
      PyVal.tuple [PyVal.str "a", PyVal.float 1, PyVal.int 3],
      PyVal.tuple [PyVal.str "x", PyVal.float 1, PyVal.int 9]])
      = Except.ok ⟨12, ["a"], ["a"], []⟩ := by
    rw [process_stock_list_eq]
    have hsa : (pyStrip "a" = "") = False := by decide
    have hsx : (pyStrip "x" = "") = False := by decide
    norm_num [batchValue, outOfStockOf, lowStockOf, negativeStockOf, validRecord,
      convert_price_to_float, pyFloat, catOut, catLow, catNeg, recordValue, round2,
      isPyInt, pyIntVal, hsa, hsx, List.filterMap_cons]
  exact ⟨hw, claim_C2_partition_exclusive _ _ hw "a"⟩

theorem validRecord_negative_price (pid : String) (price sq : PyVal) (pr : ℚ)
    (h1 : pyFloat price = some pr) (h2 : pr < 0) :
    validRecord (PyVal.tuple [PyVal.str pid, price, sq])
      = validRecord (PyVal.tuple [PyVal.str pid, PyVal.float 0, sq]) := by
  have h0 : pyFloat (PyVal.float 0) = some 0 := rfl
  simp [validRecord, convert_price_to_float, h1, h2, h0]

/-- C6: an otherwise-valid record whose price converts to a negative number
is not skipped: processing it is identical to processing the same record with
price 0 (so it is categorised by its quantity exactly as a price-0 record),
and it contributes nothing to `total_value`. -/
theorem claim_C6_negative_price_clamped (st : StockResult) (pid : String) (price sq : PyVal)
    (pr : ℚ) (h1 : pyFloat price = some pr) (h2 : pr < 0) :
    processRecord st (PyVal.tuple [PyVal.str pid, price, sq])
      = processRecord st (PyVal.tuple [PyVal.str pid, PyVal.float 0, sq]) ∧
    (processRecord st (PyVal.tuple [PyVal.str pid, price, sq])).total_value
      = st.total_value := by
  have hv := validRecord_negative_price pid price sq pr h1 h2
  constructor
  · rw [processRecord_eq, processRecord_eq, hv]
  · rw [processRecord_eq]
    cases hvv : validRecord (PyVal.tuple [PyVal.str pid, price, sq]) with
    | none => rfl
    | some r =>
      have hr : recordValue r = 0 := by
        simp only [validRecord, convert_price_to_float, h1, if_pos h2] at hvv
        split at hvv
        · simp at hvv
        · split at hvv
          · injection hvv with hvv
            subst hvv
            simp [recordValue]
          · simp at hvv
      simp [hr]

/-- C6 witness: a record with price -3 behaves like the same record with
price 0 and leaves the running total unchanged. -/
theorem claim_C6_witness :
    pyFloat (PyVal.float (-3)) = some (-3) ∧ ((-3 : ℚ) < 0) ∧
    processRecord ⟨7, ["z"], [], []⟩
        (PyVal.tuple [PyVal.str "n1", PyVal.float (-3), PyVal.int 2])
      = processRecord ⟨7, ["z"], [], []⟩
          (PyVal.tuple [PyVal.str "n1", PyVal.float 0, PyVal.int 2]) ∧
    (processRecord ⟨7, ["z"], [], []⟩
        (PyVal.tuple [PyVal.str "n1", PyVal.float (-3), PyVal.int 2])).total_value = 7 :=
  ⟨rfl, by norm_num,
   (claim_C6_negative_price_clamped ⟨7, ["z"], [], []⟩ "n1" (PyVal.float (-3)) (PyVal.int 2)
     (-3) rfl (by norm_num)).1,
   (claim_C6_negative_price_clamped ⟨7, ["z"], [], []⟩ "n1" (PyVal.float (-3)) (PyVal.int 2)
     (-3) rfl (by norm_num)).2⟩

/-- C9: a boolean `stock_quantity` passes the `isinstance(int)` check
(`bool` is a subclass of `int`): with `True` the record is treated as
quantity 1 (identifier appended to `low_stock_items`, price counted once in
the total), with `False` as quantity 0 (identifier appended to
`out_of_stock_items`, contributing 0). -/
theorem claim_C9_bool_quantity (st : StockResult) (s : String) (price : PyVal) (pr : ℚ)
    (h1 : pyStrip s ≠ "") (h2 : pyFloat price = some pr) (h3 : 0 ≤ pr) :
    isPyInt (PyVal.bool true) = true ∧ isPyInt (PyVal.bool false) = true ∧
    processRecord st (PyVal.tuple [PyVal.str s, price, PyVal.bool true])
      = ⟨st.total_value + pr, st.out_of_stock_items, st.low_stock_items ++ [s],
         st.negative_stock_items⟩ ∧
    processRecord st (PyVal.tuple [PyVal.str s, price, PyVal.bool false])
      = ⟨st.total_value, st.out_of_stock_items ++ [s], st.low_stock_items,
         st.negative_stock_items⟩ := by
  have h4 : ¬ pr < 0 := not_lt.mpr h3
  refine ⟨rfl, rfl, ?_, ?_⟩ <;>
    norm_num [processRecord, convert_price_to_float, h1, h2, h4, isPyInt, pyIntVal]

/-- C9 witness: concrete boolean quantities. -/
theorem claim_C9_witness :
    pyStrip "b1" ≠ "" ∧ pyFloat (PyVal.float 3) = some 3 ∧ ((0:ℚ) ≤ 3) ∧
    processRecord ⟨0, [], [], []⟩ (PyVal.tuple [PyVal.str "b1", PyVal.float 3, PyVal.bool true])
      = ⟨0 + 3, [], ["b1"], []⟩ ∧
    processRecord ⟨0, [], [], []⟩ (PyVal.tuple [PyVal.str "b1", PyVal.float 3, PyVal.bool false])
      = ⟨0, ["b1"], [], []⟩ := by
  have h1 : pyStrip "b1" ≠ "" := by decide
  have h := claim_C9_bool_quantity ⟨0, [], [], []⟩ "b1" (PyVal.float 3) 3 h1 rfl (by norm_num)
  exact ⟨h1, rfl, by norm_num, h.2.2.1, h.2.2.2⟩

/-- C10: stripping is used only for validation, never for output — for every
otherwise-valid record whose identifier carries surrounding whitespace
(nonempty after stripping, different from its stripped form), and for every
state, convertible price and integer quantity, the identifier that the loop
appends — to `out_of_stock_items` when the quantity is zero, to
`low_stock_items` when it is in (0, 5], to `negative_stock_items` when it is
negative — is the original string, whitespace included, never its stripped
form. -/
theorem claim_C10_identifier_untrimmed (s : String) (h1 : pyStrip s ≠ "")
    (h2 : pyStrip s ≠ s) (st : StockResult) (price : PyVal) (pr : ℚ)
    (hp : pyFloat price = some pr) (q : Int) :
    processRecord st (PyVal.tuple [PyVal.str s, price, PyVal.int q]) =
      ⟨st.total_value + (if pr < 0 then 0 else pr) * (if q < 0 then 0 else (q : ℚ)),
       st.out_of_stock_items ++ (if q = 0 then [s] else []),
       st.low_stock_items ++ (if 0 < q ∧ q ≤ 5 then [s] else []),
       st.negative_stock_items ++ (if q < 0 then [s] else [])⟩ := by
  have hv : validRecord (PyVal.tuple [PyVal.str s, price, PyVal.int q])
      = some (s, (if pr < 0 then 0 else pr), q) := by
    simp [validRecord, convert_price_to_float, hp, h1, isPyInt, pyIntVal]
  rw [processRecord_eq, hv]
  simp [recordValue, catOut, catLow, catNeg, apply_ite Option.toList]

/-- C10 witness: the identifier " p1 " is reported with its whitespace in
each of the three category sequences, at quantities 0, 3 and -2. -/
theorem claim_C10_witness :
    pyStrip " p1 " ≠ "" ∧ pyStrip " p1 " ≠ " p1 " ∧
    processRecord ⟨0, [], [], []⟩
        (PyVal.tuple [PyVal.str " p1 ", PyVal.float 2, PyVal.int 0])
      = ⟨0, [" p1 "], [], []⟩ ∧
    processRecord ⟨0, [], [], []⟩
        (PyVal.tuple [PyVal.str " p1 ", PyVal.float 2, PyVal.int 3])
      = ⟨6, [], [" p1 "], []⟩ ∧
    processRecord ⟨0, [], [], []⟩
        (PyVal.tuple [PyVal.str " p1 ", PyVal.float 2, PyVal.int (-2)])
      = ⟨0, [], [], [" p1 "]⟩ := by
  have h1 : pyStrip " p1 " ≠ "" := by decide
  have h2 : pyStrip " p1 " ≠ " p1 " := by decide
  refine ⟨h1, h2, ?_, ?_, ?_⟩
  · rw [claim_C10_identifier_untrimmed " p1 " h1 h2 ⟨0, [], [], []⟩
      (PyVal.float 2) 2 rfl 0]
    norm_num
  · rw [claim_C10_identifier_untrimmed " p1 " h1 h2 ⟨0, [], [], []⟩
      (PyVal.float 2) 2 rfl 3]
    norm_num
  · rw [claim_C10_identifier_untrimmed " p1 " h1 h2 ⟨0, [], [], []⟩
      (PyVal.float 2) 2 rfl (-2)]
    norm_num
